import Mathlib

/-!
Shallow embedding of the expense-tracker backend
(`src/database/init.js`, `src/models/expense.js`, `src/routes/api.js`).

Modelling conventions:
* the SQLite `expenses` table is a list of rows in insertion order plus the
  AUTOINCREMENT counter (`Store`);
* SQLite TEXT comparison (`date >= ?`, `date <= ?`, `ORDER BY date`) is
  byte-wise lexicographic (memcmp) order, modelled by the structural
  comparison `strLt`/`strLe` on code points (all stored dates are ASCII
  strings, where byte order and code-point order agree);
* a thrown JavaScript `Error` is the `.error` branch of `Except String`
  carrying the message (the HTTP layer turns it into a 400 response);
* `REAL` amounts and `parseFloat` results are modelled as `Rat`; a field that
  is absent (`undefined`) is the outer `none` of an `Option`, and for `amount`
  the inner `none` marks a present value whose `parseFloat` is `NaN`
  (e.g. `null` or a non-numeric string);
* `CURRENT_TIMESTAMP` is an abstract clock value `now : Nat` passed to the
  mutating operations;
* `String.prototype.trim` is `jsTrim` (strip leading and trailing
  whitespace), written structurally so that the kernel can evaluate it.
-/

/-- JavaScript `String.prototype.trim`: drop leading and trailing
whitespace. -/
def jsTrim (s : String) : String :=
  String.mk
    (((s.toList.dropWhile Char.isWhitespace).reverse.dropWhile
        Char.isWhitespace).reverse)

/-- Byte-wise (memcmp) strict lexicographic comparison, the order SQLite uses
for TEXT columns, on the code-point lists of the strings. -/
def memcmpLt : List Char → List Char → Bool
  | [], [] => false
  | [], _ :: _ => true
  | _ :: _, [] => false
  | a :: as, b :: bs =>
    decide (a.toNat < b.toNat) || (decide (a.toNat = b.toNat) && memcmpLt as bs)

/-- SQLite `<` on TEXT values. -/
def strLt (a b : String) : Bool :=
  memcmpLt a.toList b.toList

/-- SQLite `<=` on TEXT values. -/
def strLe (a b : String) : Bool :=
  strLt a b || a == b

/-- One row of the `expenses` table. -/
structure Expense where
  id : Nat
  description : String
  amount : Rat
  category : String
  date : String
  created_at : Nat
  updated_at : Nat
deriving DecidableEq, Repr

/-- The `expenses` table: rows in insertion order plus the AUTOINCREMENT
state (`nextId` is the rowid the next INSERT will receive). -/
structure Store where
  rows : List Expense
  nextId : Nat
deriving DecidableEq, Repr

/-- Table invariants guaranteed by SQLite: `id` is a PRIMARY KEY (all rowids
distinct) and AUTOINCREMENT hands out fresh ids, so every stored id is below
the counter. -/
def Store.WF (st : Store) : Prop :=
  (st.rows.map (fun e => e.id)).Nodup ∧ ∀ e ∈ st.rows, e.id < st.nextId

instance (st : Store) : Decidable st.WF := by
  unfold Store.WF
  infer_instance

/-- A freshly initialized database: no rows, first rowid is 1. -/
def Store.empty : Store :=
  { rows := [], nextId := 1 }

/-- The list `VALID_CATEGORIES` from `src/models/expense.js`. -/
def VALID_CATEGORIES : List String :=
  ["Groceries", "Transport", "Housing and Utilities", "Restaurants and Cafes",
   "Health and Medicine", "Clothing & Footwear", "Entertainment"]

/-- A JSON request body for create/update, after `parseFloat` on `amount`. -/
structure ExpenseCandidate where
  description : Option String
  amount : Option (Option Rat)
  category : Option String
  date : Option String
deriving DecidableEq, Repr

/-- Lexical date check mirroring the regular expression
`/^\d{4}-\d{2}-\d{2}$/` (exactly four digits, dash, two digits, dash, two
digits). -/
def matchesDateFormat (s : String) : Bool :=
  match s.toList with
  | [y1, y2, y3, y4, h1, m1, m2, h2, d1, d2] =>
    y1.isDigit && y2.isDigit && y3.isDigit && y4.isDigit && (h1 == '-') &&
    m1.isDigit && m2.isDigit && (h2 == '-') && d1.isDigit && d2.isDigit
  | _ => false

/-- The clause `ORDER BY date DESC, id DESC` from `src/models/expense.js`, as the
relation "row `a` may be listed no later than row `b`". -/
def orderedBefore (a b : Expense) : Prop :=
  strLt b.date a.date = true ∨ (a.date = b.date ∧ b.id ≤ a.id)

instance : DecidableRel orderedBefore := fun a b =>
  inferInstanceAs
    (Decidable (strLt b.date a.date = true ∨ (a.date = b.date ∧ b.id ≤ a.id)))

/-- Query-string filters of `GET /api/expenses` (absent fields are `none`;
the route layer only forwards non-empty values). -/
structure Filters where
  category : Option String
  startDate : Option String
  endDate : Option String
deriving DecidableEq, Repr

/-- The empty filter: `list({})`. -/
def Filters.empty : Filters :=
  { category := none, startDate := none, endDate := none }

/-- The WHERE clause `ExpenseModel.getAll` builds: `category = ?`,
`date >= ?`, `date <= ?` for whichever filters are present. -/
def matchesFilters (f : Filters) (e : Expense) : Bool :=
  (match f.category with
   | none => true
   | some c => e.category == c) &&
  (match f.startDate with
   | none => true
   | some s => strLe s e.date) &&
  (match f.endDate with
   | none => true
   | some s => strLe e.date s)

namespace ExpenseModel

/-- Lookup `SELECT * FROM expenses WHERE id = ?` with `.get`: the first row whose
rowid matches (there is at most one in a well-formed table). -/
def getById (id : Nat) (st : Store) : Option Expense :=
  st.rows.find? (fun e => e.id == id)

/-- Function `ExpenseModel.getAll` from `src/models/expense.js`: apply the built WHERE
clause, then `ORDER BY date DESC, id DESC` (modelled by insertion sort with
respect to `orderedBefore`; on tables with distinct rowids the relation is a
total order, so the sorted result is unique and the choice of algorithm does
not matter). -/
def getAll (f : Filters) (st : Store) : List Expense :=
  List.insertionSort orderedBefore (st.rows.filter (matchesFilters f))

/-- Zero-padding `String(month).padStart(2, '0')`. -/
def pad2 (n : Nat) : String :=
  if n < 10 then "0" ++ toString n else toString n

/-- Function `ExpenseModel.getMonthlyExpenses`: the literal range
`'YYYY-MM-01' <= date <= 'YYYY-MM-31'` with `ORDER BY date DESC, id DESC`.
The upper bound hardcodes day 31. -/
def getMonthlyExpenses (year month : Nat) (st : Store) : List Expense :=
  let startDate := toString year ++ "-" ++ pad2 month ++ "-01"
  let endDate := toString year ++ "-" ++ pad2 month ++ "-31"
  List.insertionSort orderedBefore
    (st.rows.filter (fun e => strLe startDate e.date && strLe e.date endDate))

/-- Function `ExpenseModel.create` from `src/models/expense.js`: the four validation
checks in source order (JS truthiness of `!description`, `!category` and
`!date` on the empty string coincides with the trim/membership/regex checks
that follow them), then `INSERT` of the trimmed description, parsed amount,
category and verbatim date with a fresh rowid and both timestamps set to the
current clock, then `this.getById(result.lastInsertRowid)`. -/
def create (c : ExpenseCandidate) (now : Nat) (st : Store) :
    Except String (Store × Expense) :=
  match c.description with
  | none => .error "Description is required and must be a non-empty string"
  | some d =>
  if jsTrim d == "" then
    .error "Description is required and must be a non-empty string"
  else match c.amount with
  | none => .error "Amount is required and must be a non-negative number"
  | some none => .error "Amount is required and must be a non-negative number"
  | some (some a) =>
  if a < 0 then .error "Amount is required and must be a non-negative number"
  else match c.category with
  | none => .error ("Category must be one of: " ++
      String.intercalate ", " VALID_CATEGORIES)
  | some cat =>
  if !(VALID_CATEGORIES.contains cat) then
    .error ("Category must be one of: " ++
      String.intercalate ", " VALID_CATEGORIES)
  else match c.date with
  | none => .error "Date is required and must be in YYYY-MM-DD format"
  | some dt =>
  if !(matchesDateFormat dt) then
    .error "Date is required and must be in YYYY-MM-DD format"
  else
    let row : Expense :=
      { id := st.nextId, description := jsTrim d, amount := a, category := cat,
        date := dt, created_at := now, updated_at := now }
    let st2 : Store := { rows := st.rows ++ [row], nextId := st.nextId + 1 }
    .ok (st2, (getById st.nextId st2).getD row)

/-- Function `ExpenseModel.update` from `src/models/expense.js`: `getById` first
(`null`, modelled `.ok none`, if absent — the route layer answers 404);
then the four update-mode checks in source order, each skipped when the field
is `undefined`; then a single UPDATE statement writing, for every field, the
validated new value when present and the existing value otherwise, plus
`updated_at = CURRENT_TIMESTAMP`; finally `this.getById(id)`. -/
def update (id : Nat) (c : ExpenseCandidate) (now : Nat) (st : Store) :
    Except String (Option (Store × Expense)) :=
  match getById id st with
  | none => .ok none
  | some existing =>
  if (match c.description with
      | some d => jsTrim d == ""
      | none => false) then
    .error "Description must be a non-empty string"
  else if (match c.amount with
      | some none => true
      | some (some a) => decide (a < 0)
      | none => false) then
    .error "Amount must be a non-negative number"
  else if (match c.category with
      | some cat => !(VALID_CATEGORIES.contains cat)
      | none => false) then
    .error ("Category must be one of: " ++
      String.intercalate ", " VALID_CATEGORIES)
  else if (match c.date with
      | some dt => !(matchesDateFormat dt)
      | none => false) then
    .error "Date must be in YYYY-MM-DD format"
  else
    let row : Expense :=
      { id := existing.id,
        description := match c.description with
          | some d => jsTrim d
          | none => existing.description,
        amount := match c.amount with
          | some (some a) => a
          | _ => existing.amount,
        category := (c.category).getD existing.category,
        date := (c.date).getD existing.date,
        created_at := existing.created_at,
        updated_at := now }
    let st2 : Store :=
      { rows := st.rows.map (fun e => if e.id == id then row else e),
        nextId := st.nextId }
    .ok (some (st2, (getById id st2).getD row))

/-- Function `ExpenseModel.delete` from `src/models/expense.js`: `getById` first,
returning `false` if absent (the route layer answers 404 `NotFoundError`);
otherwise `DELETE FROM expenses WHERE id = ?` and `true` (the route layer
answers 204 with no content). -/
def delete (id : Nat) (st : Store) : Bool × Store :=
  match getById id st with
  | none => (false, st)
  | some _ =>
    (true, { rows := st.rows.filter (fun e => !(e.id == id)),
             nextId := st.nextId })

/-- Function `ExpenseModel.getCategories`. -/
def getCategories : List String :=
  VALID_CATEGORIES

end ExpenseModel

/-- The decision the `create` validation cascade makes, as a predicate:
`true` exactly when none of the four checks throws. -/
def createValid (c : ExpenseCandidate) : Bool :=
  (match c.description with
   | none => false
   | some d => !(jsTrim d == "")) &&
  (match c.amount with
   | none => false
   | some none => false
   | some (some a) => decide (0 ≤ a)) &&
  (match c.category with
   | none => false
   | some cat => VALID_CATEGORIES.contains cat) &&
  (match c.date with
   | none => false
   | some dt => matchesDateFormat dt)

/-- The table contents after a `create` call: a thrown validation error
propagates before the INSERT statement runs, leaving the table as it was. -/
def createStoreAfter (c : ExpenseCandidate) (now : Nat) (st : Store) : Store :=
  match ExpenseModel.create c now st with
  | .ok p => p.1
  | .error _ => st

/-- Whether a `create` call succeeds. -/
def createOk (c : ExpenseCandidate) (now : Nat) (st : Store) : Bool :=
  match ExpenseModel.create c now st with
  | .ok _ => true
  | .error _ => false

/-- The record a successful `create` call returns. -/
def createdRecord (c : ExpenseCandidate) (now : Nat) (st : Store) :
    Option Expense :=
  match ExpenseModel.create c now st with
  | .ok p => some p.2
  | .error _ => none

example : createOk
    { description := some "Lunch", amount := some (some 10),
      category := some "Groceries", date := some "2024-01-15" }
    0 Store.empty = true := by decide

example : createOk
    { description := some "Lunch", amount := some (some 10),
      category := some "Snacks", date := some "2024-01-15" }
    0 Store.empty = false := by decide

example : createOk
    { description := some "Lunch", amount := some (some (mkRat 99999999 100)),
      category := some "Groceries", date := some "2024-01-15" }
    0 Store.empty = true := by decide

/-- Characters with equal code points are equal. -/
theorem Char.toNat_inj_of_eq {a b : Char} (h : a.toNat = b.toNat) : a = b :=
  Char.eq_of_val_eq (UInt32.eq_of_val_eq (Fin.val_injective h))

theorem memcmpLt_irrefl : ∀ l, memcmpLt l l = false
  | [] => rfl
  | a :: as => by
    simp [memcmpLt, memcmpLt_irrefl as]

theorem memcmpLt_trans :
    ∀ l1 l2 l3, memcmpLt l1 l2 = true → memcmpLt l2 l3 = true →
      memcmpLt l1 l3 = true
  | [], _ :: _, _ :: _, _, _ => rfl
  | [], _ :: _, [], _, h23 => by simp [memcmpLt] at h23
  | [], [], _, h12, _ => by simp [memcmpLt] at h12
  | _ :: _, [], _, h12, _ => by simp [memcmpLt] at h12
  | _ :: _, _ :: _, [], _, h23 => by simp [memcmpLt] at h23
  | a :: as, b :: bs, c :: cs, h12, h23 => by
    simp only [memcmpLt, Bool.or_eq_true, Bool.and_eq_true,
      decide_eq_true_eq] at h12 h23 ⊢
    rcases h12 with h12 | ⟨hab, h12⟩
    · rcases h23 with h23 | ⟨hbc, _⟩
      · exact Or.inl (Nat.lt_trans h12 h23)
      · exact Or.inl (hbc ▸ h12)
    · rcases h23 with h23 | ⟨hbc, h23⟩
      · exact Or.inl (hab ▸ h23)
      · exact Or.inr ⟨hab.trans hbc, memcmpLt_trans as bs cs h12 h23⟩

theorem memcmpLt_trichotomy :
    ∀ l1 l2, memcmpLt l1 l2 = true ∨ l1 = l2 ∨ memcmpLt l2 l1 = true
  | [], [] => Or.inr (Or.inl rfl)
  | [], _ :: _ => Or.inl rfl
  | _ :: _, [] => Or.inr (Or.inr rfl)
  | a :: as, b :: bs => by
    rcases Nat.lt_trichotomy a.toNat b.toNat with h | h | h
    · exact Or.inl (by simp [memcmpLt, h])
    · have hab : a = b := Char.toNat_inj_of_eq h
      subst hab
      rcases memcmpLt_trichotomy as bs with h2 | h2 | h2
      · exact Or.inl (by simp [memcmpLt, h2])
      · exact Or.inr (Or.inl (by rw [h2]))
      · exact Or.inr (Or.inr (by simp [memcmpLt, h2]))
    · exact Or.inr (Or.inr (by simp [memcmpLt, h]))

theorem strLt_irrefl (s : String) : strLt s s = false :=
  memcmpLt_irrefl s.toList

theorem strLt_trans {a b c : String} (h1 : strLt a b = true)
    (h2 : strLt b c = true) : strLt a c = true :=
  memcmpLt_trans a.toList b.toList c.toList h1 h2

theorem strLt_trichotomy (a b : String) :
    strLt a b = true ∨ a = b ∨ strLt b a = true := by
  rcases memcmpLt_trichotomy a.toList b.toList with h | h | h
  · exact Or.inl h
  · exact Or.inr (Or.inl (String.toList_inj.mp h))
  · exact Or.inr (Or.inr h)

theorem strLt_asymm {a b : String} (h : strLt a b = true) :
    strLt b a = false := by
  by_contra hc
  have hba : strLt b a = true := by
    cases hx : strLt b a
    · exact absurd hx hc
    · rfl
  have := strLt_trans h hba
  rw [strLt_irrefl] at this
  exact Bool.false_ne_true this

theorem strLt_ne {a b : String} (h : strLt a b = true) : a ≠ b := by
  intro he
  subst he
  rw [strLt_irrefl] at h
  exact Bool.false_ne_true h

/-- Relation `strLe` is the reflexive closure of `strLt`. -/
theorem strLe_iff {a b : String} :
    strLe a b = true ↔ strLt a b = true ∨ a = b := by
  unfold strLe
  simp

instance : IsTotal Expense orderedBefore := by
  constructor
  intro a b
  rcases strLt_trichotomy a.date b.date with h | h | h
  · exact Or.inr (Or.inl h)
  · rcases Nat.le_total b.id a.id with h2 | h2
    · exact Or.inl (Or.inr ⟨h, h2⟩)
    · exact Or.inr (Or.inr ⟨h.symm, h2⟩)
  · exact Or.inl (Or.inl h)

instance : IsTrans Expense orderedBefore := by
  constructor
  intro a b c hab hbc
  rcases hab with hab | ⟨hab, hab2⟩
  · rcases hbc with hbc | ⟨hbc, _⟩
    · exact Or.inl (strLt_trans hbc hab)
    · exact Or.inl (hbc ▸ hab)
  · rcases hbc with hbc | ⟨hbc, hbc2⟩
    · exact Or.inl (hab ▸ hbc)
    · exact Or.inr ⟨hab.trans hbc, Nat.le_trans hbc2 hab2⟩

/-- In a well-formed table no existing row is found under a freshly assigned
rowid, so the lookup after an INSERT returns the inserted row. -/
theorem getById_append_fresh (st : Store) (hwf : st.WF) (row : Expense)
    (hrow : row.id = st.nextId) (n : Nat) :
    ExpenseModel.getById st.nextId { rows := st.rows ++ [row], nextId := n }
      = some row := by
  unfold ExpenseModel.getById
  simp only [List.find?_append]
  have h1 : st.rows.find? (fun e => e.id == st.nextId) = none := by
    rw [List.find?_eq_none]
    intro e he
    have := hwf.2 e he
    simp only [beq_iff_eq]
    omega
  rw [h1]
  simp [hrow]

/-- A candidate passing all four `create` checks is inserted: the new row
carries the fresh rowid, the trimmed description, the parsed amount, the
category, the verbatim date and both timestamps set to the clock, and it is
appended to the table. -/
theorem create_ok_of_valid {c : ExpenseCandidate} (now : Nat) {st : Store}
    (hv : createValid c = true) (hwf : st.WF) :
    ∃ d a cat dt,
      c.description = some d ∧ c.amount = some (some a) ∧
      c.category = some cat ∧ c.date = some dt ∧
      ExpenseModel.create c now st =
        .ok ({ rows := st.rows ++
                 [⟨st.nextId, jsTrim d, a, cat, dt, now, now⟩],
               nextId := st.nextId + 1 },
             ⟨st.nextId, jsTrim d, a, cat, dt, now, now⟩) := by
  rcases hd : c.description with _ | d
  · rw [createValid, hd] at hv; simp at hv
  rcases ha : c.amount with _ | (_ | a)
  · rw [createValid, hd, ha] at hv; simp at hv
  · rw [createValid, hd, ha] at hv; simp at hv
  rcases hc : c.category with _ | cat
  · rw [createValid, hd, ha, hc] at hv; simp at hv
  rcases hdt : c.date with _ | dt
  · rw [createValid, hd, ha, hc, hdt] at hv; simp at hv
  rw [createValid, hd, ha, hc, hdt] at hv
  simp only [Bool.and_eq_true, Bool.not_eq_true', beq_eq_false_iff_ne,
    ne_eq, decide_eq_true_eq] at hv
  obtain ⟨⟨⟨h1, h2⟩, h3⟩, h4⟩ := hv
  refine ⟨d, a, cat, dt, rfl, rfl, rfl, rfl, ?_⟩
  simp only [ExpenseModel.create, hd, ha, hc, hdt]
  rw [if_neg (by simpa using h1)]
  rw [if_neg (not_lt.mpr h2)]
  rw [if_neg (by rw [h3]; simp)]
  rw [if_neg (by rw [h4]; simp)]
  have hfind := getById_append_fresh st hwf
    ⟨st.nextId, jsTrim d, a, cat, dt, now, now⟩ rfl (st.nextId + 1)
  simp [hfind]

/-- A candidate failing one of the four `create` checks makes `create` throw
(the thrown message is one of the four source messages). -/
theorem create_error_of_invalid {c : ExpenseCandidate} (now : Nat)
    (st : Store) (hv : createValid c = false) :
    ∃ msg, ExpenseModel.create c now st = .error msg := by
  rcases hd : c.description with _ | d
  · exact ⟨_, by simp only [ExpenseModel.create, hd]; rfl⟩
  by_cases h1 : (jsTrim d == "") = true
  · exact ⟨_, by simp only [ExpenseModel.create, hd]; rw [if_pos h1]⟩
  rcases ha : c.amount with _ | (_ | a)
  · exact ⟨_, by simp only [ExpenseModel.create, hd, ha]; rw [if_neg h1]⟩
  · exact ⟨_, by simp only [ExpenseModel.create, hd, ha]; rw [if_neg h1]⟩
  by_cases h2 : a < 0
  · exact ⟨_, by
      simp only [ExpenseModel.create, hd, ha]
      rw [if_neg h1, if_pos h2]⟩
  rcases hc : c.category with _ | cat
  · exact ⟨_, by
      simp only [ExpenseModel.create, hd, ha, hc]
      rw [if_neg h1, if_neg h2]⟩
  by_cases h3 : VALID_CATEGORIES.contains cat = true
  · rcases hdt : c.date with _ | dt
    · exact ⟨_, by
        simp only [ExpenseModel.create, hd, ha, hc, hdt]
        rw [if_neg h1, if_neg h2, if_neg (by rw [h3]; simp)]⟩
    by_cases h4 : matchesDateFormat dt = true
    · exfalso
      have h1' : (jsTrim d == "") = false := by simpa using h1
      have hmem : cat ∈ VALID_CATEGORIES := by simpa using h3
      have hvt : createValid c = true := by
        rw [createValid, hd, ha, hc, hdt]
        simp [h1', hmem, h4, not_lt.mp h2]
      rw [hvt] at hv
      simp at hv
    · exact ⟨_, by
        simp only [ExpenseModel.create, hd, ha, hc, hdt]
        rw [if_neg h1, if_neg h2, if_neg (by rw [h3]; simp),
          if_pos (by simpa using h4)]⟩
  · exact ⟨_, by
      simp only [ExpenseModel.create, hd, ha, hc]
      rw [if_neg h1, if_neg h2, if_pos (by simpa using h3)]⟩

/-- The `amount` field of the record a successful `create` call returns. -/
def createdAmount (c : ExpenseCandidate) (now : Nat) (st : Store) :
    Option Rat :=
  (createdRecord c now st).map (fun e => e.amount)

/-- The `date` field of the record a successful `create` call returns. -/
def createdDate (c : ExpenseCandidate) (now : Nat) (st : Store) :
    Option String :=
  (createdRecord c now st).map (fun e => e.date)

/-- C1: the claim says `create` with amount 999999.99 succeeds while
1000000.00 fails with a validation error and -0.01 fails with a validation
error.  The code checks only `parseFloat(amount) < 0` and has no upper
bound: with the other fields valid, amount 1000000.00 is accepted and stored
as is (the repository's own SPECIFICATION.md demands the error "Amount must
not exceed 999,999.99"), while 999999.99 succeeds and -0.01 fails, as
claimed. -/
theorem create_no_amount_upper_bound :
    createdAmount
      { description := some "Lunch", amount := some (some 1000000),
        category := some "Groceries", date := some "2024-01-15" }
      0 Store.empty = some 1000000 ∧
    createOk
      { description := some "Lunch",
        amount := some (some (mkRat 99999999 100)),
        category := some "Groceries", date := some "2024-01-15" }
      0 Store.empty = true ∧
    createOk
      { description := some "Lunch", amount := some (some (mkRat (-1) 100)),
        category := some "Groceries", date := some "2024-01-15" }
      0 Store.empty = false := by
  refine ⟨?_, ?_, ?_⟩ <;> decide

/-- C2: the claim says `create` rejects dates later than today (per the
server clock) and dates before 2000-01-01.  The code's date check is only
the regular expression: for every clock value, a candidate dated 2024-06-16
is accepted and stored verbatim (so in particular with the clock at
2024-06-15), and a candidate dated 1999-12-31 is accepted as well, although
the repository's own SPECIFICATION.md demands the errors "Date cannot be in
the future" and "Date must be on or after January 1, 2000"; 2024-06-15 is
accepted, as claimed. -/
theorem create_accepts_future_and_pre2000_dates :
    ∀ now : Nat,
      createOk
        { description := some "Lunch", amount := some (some 10),
          category := some "Groceries", date := some "2024-06-16" }
        now Store.empty = true ∧
      createdDate
        { description := some "Lunch", amount := some (some 10),
          category := some "Groceries", date := some "2024-06-16" }
        now Store.empty = some "2024-06-16" ∧
      createOk
        { description := some "Lunch", amount := some (some 10),
          category := some "Groceries", date := some "1999-12-31" }
        now Store.empty = true ∧
      createOk
        { description := some "Lunch", amount := some (some 10),
          category := some "Groceries", date := some "2024-06-15" }
        now Store.empty = true := by
  intro now
  exact ⟨rfl, rfl, rfl, rfl⟩

/-- C6: the claim says a stored amount equals the input normalized to two
decimal places, so 10.555 would be stored as 10.56 or 10.55.  The code
stores `parseFloat(amount)` verbatim with no rounding: 10.555 is stored as
10.555, which equals neither 10.56 nor 10.55 (the repository's own
SPECIFICATION.md demands rounding to 2 decimal places). -/
theorem create_stores_amount_unrounded :
    createdAmount
      { description := some "Lunch", amount := some (some (mkRat 10555 1000)),
        category := some "Groceries", date := some "2024-01-15" }
      0 Store.empty = some (mkRat 10555 1000) ∧
    mkRat 10555 1000 ≠ mkRat 1056 100 ∧
    mkRat 10555 1000 ≠ mkRat 1055 100 := by
  refine ⟨?_, ?_, ?_⟩ <;> decide

/-- C7: a candidate missing a required field or failing a validation check
makes `create` throw (a `ValidationError` surfaced as HTTP 400), and the
table is unchanged: the exception propagates before the INSERT statement
runs, so no record is persisted. -/
theorem create_invalid_rejected_and_store_unchanged (c : ExpenseCandidate)
    (now : Nat) (st : Store) (hv : createValid c = false) :
    (∃ msg, ExpenseModel.create c now st = .error msg) ∧
    createStoreAfter c now st = st := by
  obtain ⟨msg, hmsg⟩ := create_error_of_invalid now st hv
  refine ⟨⟨msg, hmsg⟩, ?_⟩
  simp only [createStoreAfter, hmsg]

/-- Witness for C7 at a concrete invalid candidate (missing description). -/
theorem create_invalid_rejected_and_store_unchanged_witness :
    createValid
      { description := none, amount := some (some 10),
        category := some "Groceries", date := some "2024-01-15" } = false ∧
    ((∃ msg, ExpenseModel.create
        { description := none, amount := some (some 10),
          category := some "Groceries", date := some "2024-01-15" }
        3 Store.empty = .error msg) ∧
      createStoreAfter
        { description := none, amount := some (some 10),
          category := some "Groceries", date := some "2024-01-15" }
        3 Store.empty = Store.empty) :=
  ⟨by decide,
   create_invalid_rejected_and_store_unchanged
     { description := none, amount := some (some 10),
       category := some "Groceries", date := some "2024-01-15" }
     3 Store.empty (by decide)⟩

/-- C9: the date check in `create` is only the lexical regular expression
`/^\d{4}-\d{2}-\d{2}$/`.  With the other fields valid, `create` succeeds
exactly when the string has that shape — including non-calendar dates such
as 2024-02-30 or 2024-13-01 — and the stored record carries the string
verbatim. -/
theorem create_date_checked_lexically_only (d cat s : String) (a : Rat)
    (st : Store) (now : Nat) (hwf : st.WF) (hd : jsTrim d ≠ "")
    (ha : 0 ≤ a) (hcat : cat ∈ VALID_CATEGORIES) :
    (matchesDateFormat s = true →
      ∃ p, ExpenseModel.create
          ⟨some d, some (some a), some cat, some s⟩ now st = .ok p ∧
        p.2.date = s ∧ p.1.rows = st.rows ++ [p.2]) ∧
    (matchesDateFormat s = false →
      ∃ msg, ExpenseModel.create
          ⟨some d, some (some a), some cat, some s⟩ now st = .error msg) := by
  constructor
  · intro hms
    have hv : createValid ⟨some d, some (some a), some cat, some s⟩ = true := by
      simp [createValid, hd, ha, hcat, hms]
    obtain ⟨d2, a2, cat2, dt2, hd2, ha2, hc2, hdt2, heq⟩ :=
      create_ok_of_valid now hv hwf
    simp only [Option.some.injEq] at hd2 ha2 hc2 hdt2
    subst hd2 ha2 hc2 hdt2
    exact ⟨_, heq, rfl, rfl⟩
  · intro hms
    apply create_error_of_invalid
    simp [createValid, hms]

/-- Witness for C9 at the non-calendar date 2024-02-30. -/
theorem create_date_checked_lexically_only_witness :
    Store.empty.WF ∧ jsTrim "Lunch" ≠ "" ∧ (0 : Rat) ≤ 10 ∧
    "Groceries" ∈ VALID_CATEGORIES ∧
    ((matchesDateFormat "2024-02-30" = true →
      ∃ p, ExpenseModel.create
          ⟨some "Lunch", some (some 10), some "Groceries", some "2024-02-30"⟩
          7 Store.empty = .ok p ∧
        p.2.date = "2024-02-30" ∧ p.1.rows = Store.empty.rows ++ [p.2]) ∧
    (matchesDateFormat "2024-02-30" = false →
      ∃ msg, ExpenseModel.create
          ⟨some "Lunch", some (some 10), some "Groceries", some "2024-02-30"⟩
          7 Store.empty = .error msg)) :=
  ⟨by decide, by decide, by decide, by decide,
   create_date_checked_lexically_only "Lunch" "Groceries" "2024-02-30" 10
     Store.empty 7 (by decide) (by decide) (by decide) (by decide)⟩

/-- C8: `delete` on a present id returns `true` (the route answers 204) and
a subsequent `getById` finds nothing; `delete` on an absent id returns
`false` (the route answers 404 `NotFoundError`) and leaves the table
unchanged. -/
theorem delete_present_and_absent (id : Nat) (st : Store) :
    (∀ e, ExpenseModel.getById id st = some e →
      (ExpenseModel.delete id st).1 = true ∧
      ExpenseModel.getById id (ExpenseModel.delete id st).2 = none) ∧
    (ExpenseModel.getById id st = none →
      ExpenseModel.delete id st = (false, st)) := by
  constructor
  · intro e he
    simp only [ExpenseModel.delete, he]
    refine ⟨by trivial, ?_⟩
    unfold ExpenseModel.getById
    rw [List.find?_eq_none]
    intro x hx
    have hx2 := (List.mem_filter.mp hx).2
    simpa using hx2
  · intro he
    simp only [ExpenseModel.delete, he]

/-- One-row table used to witness C8. -/
def deleteDemoStore : Store :=
  { rows := [⟨1, "Coffee", 5, "Restaurants and Cafes", "2024-01-15", 0, 0⟩],
    nextId := 2 }

/-- Witness for C8: id 1 is present in the demo table, id 99 is absent. -/
theorem delete_present_and_absent_witness :
    ExpenseModel.getById 1 deleteDemoStore =
      some ⟨1, "Coffee", 5, "Restaurants and Cafes", "2024-01-15", 0, 0⟩ ∧
    ((ExpenseModel.delete 1 deleteDemoStore).1 = true ∧
      ExpenseModel.getById 1 (ExpenseModel.delete 1 deleteDemoStore).2 =
        none) ∧
    (ExpenseModel.getById 99 deleteDemoStore = none ∧
      ExpenseModel.delete 99 deleteDemoStore = (false, deleteDemoStore)) :=
  ⟨by decide,
   (delete_present_and_absent 1 deleteDemoStore).1
     ⟨1, "Coffee", 5, "Restaurants and Cafes", "2024-01-15", 0, 0⟩
     (by decide),
   by decide,
   (delete_present_and_absent 99 deleteDemoStore).2 (by decide)⟩

/-- The decision the `update` validation cascade makes: `true` exactly when
no present field fails its check (absent fields are skipped). -/
def updateValid (c : ExpenseCandidate) : Bool :=
  (match c.description with
   | none => true
   | some d => !(jsTrim d == "")) &&
  (match c.amount with
   | none => true
   | some none => false
   | some (some a) => decide (0 ≤ a)) &&
  (match c.category with
   | none => true
   | some cat => VALID_CATEGORIES.contains cat) &&
  (match c.date with
   | none => true
   | some dt => matchesDateFormat dt)

/-- Replacing every row bearing a given id and then looking that id up finds
the replacement, provided some row bore the id. -/
theorem find?_map_replace :
    ∀ (rows : List Expense) (old row : Expense) (id : Nat),
      rows.find? (fun e => e.id == id) = some old → row.id = id →
      (rows.map (fun e => if e.id == id then row else e)).find?
        (fun e => e.id == id) = some row
  | [], old, row, id, h, _ => by simp at h
  | e :: rest, old, row, id, h, hrow => by
    by_cases he : (e.id == id) = true
    · simp only [List.map_cons, if_pos he]
      simp only [List.find?]
      simp [hrow]
    · have he' : (e.id == id) = false := by simpa using he
      simp only [List.map_cons, if_neg he]
      simp only [List.find?, he'] at h ⊢
      exact find?_map_replace rest old row id h hrow

/-- A present record updated with a candidate passing all update-mode checks:
the single UPDATE statement replaces the row with the merge of the existing
row and the validated fields, refreshing only `updated_at`, and the final
lookup returns that merged row. -/
theorem update_ok_of_valid (id now : Nat) (c : ExpenseCandidate) (st : Store)
    (old : Expense) (hfind : ExpenseModel.getById id st = some old)
    (hv : updateValid c = true) :
    ExpenseModel.update id c now st =
      .ok (some
        ({ rows := st.rows.map (fun e =>
             if e.id == id then
               { id := old.id,
                 description := match c.description with
                   | some d => jsTrim d
                   | none => old.description,
                 amount := match c.amount with
                   | some (some a) => a
                   | _ => old.amount,
                 category := (c.category).getD old.category,
                 date := (c.date).getD old.date,
                 created_at := old.created_at,
                 updated_at := now }
             else e),
           nextId := st.nextId },
         { id := old.id,
           description := match c.description with
             | some d => jsTrim d
             | none => old.description,
           amount := match c.amount with
             | some (some a) => a
             | _ => old.amount,
           category := (c.category).getD old.category,
           date := (c.date).getD old.date,
           created_at := old.created_at,
           updated_at := now })) := by
  have hid : old.id = id := by
    simpa using List.find?_some hfind
  rw [updateValid] at hv
  simp only [Bool.and_eq_true] at hv
  obtain ⟨⟨⟨hv1, hv2⟩, hv3⟩, hv4⟩ := hv
  have g1 : (match c.description with
      | some d => jsTrim d == ""
      | none => false) = false := by
    rcases hdes : c.description with _ | d
    · simp [hdes]
    · simp only [hdes] at hv1 ⊢
      simpa using hv1
  have g2 : (match c.amount with
      | some none => true
      | some (some a) => decide (a < 0)
      | none => false) = false := by
    rcases ham : c.amount with _ | (_ | a)
    · simp [ham]
    · simp [ham] at hv2
    · simp only [ham, decide_eq_true_eq] at hv2 ⊢
      simpa using not_lt.mpr hv2
  have g3 : (match c.category with
      | some cat => !(VALID_CATEGORIES.contains cat)
      | none => false) = false := by
    rcases hcat : c.category with _ | cat
    · simp [hcat]
    · simp only [hcat] at hv3 ⊢
      simpa using hv3
  have g4 : (match c.date with
      | some dt => !(matchesDateFormat dt)
      | none => false) = false := by
    rcases hdt : c.date with _ | dt
    · simp [hdt]
    · simp only [hdt] at hv4 ⊢
      simpa using hv4
  simp only [ExpenseModel.update, hfind, g1, g2, g3, g4, Bool.false_eq_true,
    if_false]
  have hrep := find?_map_replace st.rows old
    { id := old.id,
      description := match c.description with
        | some d => jsTrim d
        | none => old.description,
      amount := match c.amount with
        | some (some a) => a
        | _ => old.amount,
      category := (c.category).getD old.category,
      date := (c.date).getD old.date,
      created_at := old.created_at,
      updated_at := now }
    id hfind hid
  unfold ExpenseModel.getById
  rw [hrep]
  rfl

/-- C4: updating an existing record with a candidate that validates keeps
every field not present in the candidate at its prior value, sets each
present field to its validated value (description trimmed, amount parsed),
keeps `id` and `created_at`, sets `updated_at` to the current clock — so it
strictly increases whenever the clock has advanced past the stored
value — and a subsequent lookup returns exactly the merged record. -/
theorem update_partial_frame (id now : Nat) (c : ExpenseCandidate)
    (st : Store) (old : Expense)
    (hfind : ExpenseModel.getById id st = some old)
    (hv : updateValid c = true) :
    ∃ st2 rec, ExpenseModel.update id c now st = .ok (some (st2, rec)) ∧
      rec.id = old.id ∧
      rec.created_at = old.created_at ∧
      rec.description =
        (match c.description with
         | some d => jsTrim d
         | none => old.description) ∧
      rec.amount =
        (match c.amount with
         | some (some a) => a
         | _ => old.amount) ∧
      rec.category = (c.category).getD old.category ∧
      rec.date = (c.date).getD old.date ∧
      rec.updated_at = now ∧
      (old.updated_at < now → old.updated_at < rec.updated_at) ∧
      ExpenseModel.getById id st2 = some rec ∧
      st2.nextId = st.nextId := by
  have heq := update_ok_of_valid id now c st old hfind hv
  refine ⟨_, _, heq, rfl, rfl, rfl, rfl, rfl, rfl, rfl, fun h => h, ?_, rfl⟩
  have hid : old.id = id := by simpa using List.find?_some hfind
  unfold ExpenseModel.getById
  exact find?_map_replace st.rows old _ id hfind hid

/-- One-row table used to witness the update claims. -/
def updateDemoStore : Store :=
  { rows := [⟨1, "Old", 5, "Groceries", "2024-01-10", 0, 0⟩], nextId := 2 }

/-- Witness for C4: `update(1, ⟨description X⟩)` at clock 5 on the demo
table sets the description and refreshes `updated_at` while every other
field keeps its prior value. -/
theorem update_partial_frame_witness :
    ExpenseModel.getById 1 updateDemoStore =
      some ⟨1, "Old", 5, "Groceries", "2024-01-10", 0, 0⟩ ∧
    updateValid ⟨some "X", none, none, none⟩ = true ∧
    (∃ st2 rec, ExpenseModel.update 1 ⟨some "X", none, none, none⟩ 5
        updateDemoStore = .ok (some (st2, rec)) ∧
      rec.id = 1 ∧
      rec.created_at = 0 ∧
      rec.description = jsTrim "X" ∧
      rec.amount = 5 ∧
      rec.category = "Groceries" ∧
      rec.date = "2024-01-10" ∧
      rec.updated_at = 5 ∧
      ((0 : Nat) < 5 → (0 : Nat) < rec.updated_at) ∧
      ExpenseModel.getById 1 st2 = some rec ∧
      st2.nextId = 2) :=
  ⟨by decide, by decide,
   update_partial_frame 1 5 ⟨some "X", none, none, none⟩ updateDemoStore
     ⟨1, "Old", 5, "Groceries", "2024-01-10", 0, 0⟩ (by decide) (by decide)⟩

/-- C10: `update` with the empty candidate on a present id runs no
validation check, succeeds, keeps description, amount, category and date at
their prior values, and still refreshes `updated_at` to the current
clock. -/
theorem update_empty_candidate (id now : Nat) (st : Store) (old : Expense)
    (hfind : ExpenseModel.getById id st = some old) :
    ∃ st2 rec,
      ExpenseModel.update id ⟨none, none, none, none⟩ now st =
        .ok (some (st2, rec)) ∧
      rec.description = old.description ∧ rec.amount = old.amount ∧
      rec.category = old.category ∧ rec.date = old.date ∧
      rec.id = old.id ∧ rec.created_at = old.created_at ∧
      rec.updated_at = now ∧
      ExpenseModel.getById id st2 = some rec := by
  have heq := update_ok_of_valid id now ⟨none, none, none, none⟩ st old hfind
    (by decide)
  refine ⟨_, _, heq, rfl, rfl, rfl, rfl, rfl, rfl, rfl, ?_⟩
  have hid : old.id = id := by simpa using List.find?_some hfind
  unfold ExpenseModel.getById
  exact find?_map_replace st.rows old _ id hfind hid

/-- Witness for C10: the empty update on the demo table at clock 9. -/
theorem update_empty_candidate_witness :
    ExpenseModel.getById 1 updateDemoStore =
      some ⟨1, "Old", 5, "Groceries", "2024-01-10", 0, 0⟩ ∧
    (∃ st2 rec,
      ExpenseModel.update 1 ⟨none, none, none, none⟩ 9 updateDemoStore =
        .ok (some (st2, rec)) ∧
      rec.description = "Old" ∧ rec.amount = 5 ∧
      rec.category = "Groceries" ∧ rec.date = "2024-01-10" ∧
      rec.id = 1 ∧ rec.created_at = 0 ∧
      rec.updated_at = 9 ∧
      ExpenseModel.getById 1 st2 = some rec) :=
  ⟨by decide,
   update_empty_candidate 1 9 updateDemoStore
     ⟨1, "Old", 5, "Groceries", "2024-01-10", 0, 0⟩ (by decide)⟩

/-- C5: `getAll` returns exactly the records matching the filters (all
records for the empty filter), ordered by date descending with id descending
as tie-break: in the output each record strictly precedes, by that order,
every later one (strictness of the tie-break uses the PRIMARY KEY
distinctness of rowids). -/
theorem getAll_filters_and_orders (f : Filters) (st : Store)
    (hids : (st.rows.map (fun e => e.id)).Nodup) :
    (ExpenseModel.getAll f st).Perm (st.rows.filter (matchesFilters f)) ∧
    (ExpenseModel.getAll f st).Pairwise (fun a b =>
      strLt b.date a.date = true ∨ (a.date = b.date ∧ b.id < a.id)) ∧
    (ExpenseModel.getAll Filters.empty st).Perm st.rows := by
  have hperm :
      (ExpenseModel.getAll f st).Perm (st.rows.filter (matchesFilters f)) :=
    List.perm_insertionSort orderedBefore (st.rows.filter (matchesFilters f))
  refine ⟨hperm, ?_, ?_⟩
  · have hsorted :
        (ExpenseModel.getAll f st).Pairwise orderedBefore :=
      List.sorted_insertionSort orderedBefore
        (st.rows.filter (matchesFilters f))
    have hsub : List.Sublist (st.rows.filter (matchesFilters f)) st.rows :=
      List.filter_sublist st.rows
    have hsubids :
        ((st.rows.filter (matchesFilters f)).map (fun e => e.id)).Nodup :=
      List.Nodup.sublist (hsub.map (fun e => e.id)) hids
    have hallids : ((ExpenseModel.getAll f st).map (fun e => e.id)).Nodup :=
      ((hperm.map (fun e => e.id)).nodup_iff).mpr hsubids
    have hne : (ExpenseModel.getAll f st).Pairwise
        (fun a b => a.id ≠ b.id) :=
      List.pairwise_map.mp hallids
    refine (hsorted.and hne).imp ?_
    rintro a b ⟨hab | ⟨hd, hle⟩, hne2⟩
    · exact Or.inl hab
    · exact Or.inr ⟨hd, Nat.lt_of_le_of_ne hle (fun h => hne2 h.symm)⟩
  · have hfe : st.rows.filter (matchesFilters Filters.empty) = st.rows := by
      apply List.filter_eq_self.mpr
      intro a _
      rfl
    show (List.insertionSort orderedBefore
      (st.rows.filter (matchesFilters Filters.empty))).Perm st.rows
    rw [hfe]
    exact List.perm_insertionSort orderedBefore st.rows

/-- Two-row table used to witness C5; the rows are dated 2024-01-10 and
2024-01-20. -/
def orderingDemoStore : Store :=
  { rows := [⟨1, "Older", 5, "Groceries", "2024-01-10", 0, 0⟩,
             ⟨2, "Newer", 7, "Transport", "2024-01-20", 0, 0⟩],
    nextId := 3 }

/-- Witness for C5: on the demo table the empty filter lists the 2024-01-20
record before the 2024-01-10 record. -/
theorem getAll_filters_and_orders_witness :
    (orderingDemoStore.rows.map (fun e => e.id)).Nodup ∧
    ((ExpenseModel.getAll Filters.empty orderingDemoStore).Perm
        (orderingDemoStore.rows.filter (matchesFilters Filters.empty)) ∧
      (ExpenseModel.getAll Filters.empty orderingDemoStore).Pairwise
        (fun a b =>
          strLt b.date a.date = true ∨ (a.date = b.date ∧ b.id < a.id)) ∧
      (ExpenseModel.getAll Filters.empty orderingDemoStore).Perm
        orderingDemoStore.rows) ∧
    ExpenseModel.getAll Filters.empty orderingDemoStore =
      [⟨2, "Newer", 7, "Transport", "2024-01-20", 0, 0⟩,
       ⟨1, "Older", 5, "Groceries", "2024-01-10", 0, 0⟩] :=
  ⟨by decide,
   getAll_filters_and_orders Filters.empty orderingDemoStore (by decide),
   by decide⟩

/-- Gregorian leap-year rule, used to phrase the spec's notion of the last
calendar day of a month. -/
def isLeapYear (y : Nat) : Bool :=
  (y % 4 == 0 && y % 100 != 0) || (y % 400 == 0)

/-- Number of days of a calendar month. -/
def daysInMonth (y m : Nat) : Nat :=
  if m == 2 then (if isLeapYear y then 29 else 28)
  else if m == 4 || m == 6 || m == 9 || m == 11 then 30
  else 31

/-- The canonical date string of a calendar day. -/
def fmtDate (y m d : Nat) : String :=
  toString y ++ "-" ++ ExpenseModel.pad2 m ++ "-" ++ ExpenseModel.pad2 d

/-- Comparison definition following the spec's words: the date strings lying
between the first and the last calendar day of the given month, i.e. the
canonical strings of its actual days. -/
def dateInCalendarMonth (y m : Nat) (s : String) : Bool :=
  (List.range (daysInMonth y m)).any (fun i => s == fmtDate y m (i + 1))

/-- C3 counterexample: the date 2024-02-31 passes the `create` regex, and
`listMonthly(2024, 2)` returns the resulting record although 2024-02-31 is
not a calendar day of February 2024 — the query's upper bound is the literal
string `2024-02-31`, not the month's last calendar day. -/
theorem getMonthlyExpenses_includes_noncalendar_date :
    createOk
      { description := some "Phantom", amount := some (some 10),
        category := some "Groceries", date := some "2024-02-31" }
      0 Store.empty = true ∧
    (ExpenseModel.getMonthlyExpenses 2024 2
        (createStoreAfter
          { description := some "Phantom", amount := some (some 10),
            category := some "Groceries", date := some "2024-02-31" }
          0 Store.empty)).map (fun e => e.date) = ["2024-02-31"] ∧
    dateInCalendarMonth 2024 2 "2024-02-31" = false := by
  refine ⟨?_, ?_, ?_⟩ <;> decide

/-- C3 (amended): `listMonthly(year, month)` returns exactly the records
whose date string lies lexicographically between `YYYY-MM-01` and the
literal `YYYY-MM-31`; for records carrying genuine zero-padded calendar
dates this is exactly the days of the month — in particular
`listMonthly(2024, 2)` includes every stored record dated 2024-02-29 and
excludes any record dated 2024-03-01 — but lexically valid non-calendar
dates up to day 31 (e.g. 2024-02-31) are returned as well. -/
theorem getMonthlyExpenses_range (year month : Nat) (st : Store)
    (e : Expense) :
    (e ∈ ExpenseModel.getMonthlyExpenses year month st ↔
      e ∈ st.rows ∧
      strLe (toString year ++ "-" ++ ExpenseModel.pad2 month ++ "-01")
        e.date = true ∧
      strLe e.date
        (toString year ++ "-" ++ ExpenseModel.pad2 month ++ "-31") = true) ∧
    (e.date = "2024-02-29" →
      (e ∈ ExpenseModel.getMonthlyExpenses 2024 2 st ↔ e ∈ st.rows)) ∧
    (e.date = "2024-03-01" →
      e ∉ ExpenseModel.getMonthlyExpenses 2024 2 st) := by
  have hmem : ∀ (y m : Nat),
      e ∈ ExpenseModel.getMonthlyExpenses y m st ↔
        e ∈ st.rows ∧
        strLe (toString y ++ "-" ++ ExpenseModel.pad2 m ++ "-01")
          e.date = true ∧
        strLe e.date
          (toString y ++ "-" ++ ExpenseModel.pad2 m ++ "-31") = true := by
    intro y m
    show e ∈ List.insertionSort orderedBefore
        (st.rows.filter (fun x =>
          strLe (toString y ++ "-" ++ ExpenseModel.pad2 m ++ "-01") x.date &&
          strLe x.date
            (toString y ++ "-" ++ ExpenseModel.pad2 m ++ "-31"))) ↔ _
    rw [List.mem_insertionSort, List.mem_filter]
    simp [Bool.and_eq_true, and_assoc]
  refine ⟨hmem year month, ?_, ?_⟩
  · intro hdate
    rw [hmem 2024 2, hdate]
    have hA : strLe (toString 2024 ++ "-" ++ ExpenseModel.pad2 2 ++ "-01")
        "2024-02-29" = true := by decide
    have hB : strLe "2024-02-29"
        (toString 2024 ++ "-" ++ ExpenseModel.pad2 2 ++ "-31") = true := by
      decide
    simp [hA, hB]
  · intro hdate hin
    rw [hmem 2024 2] at hin
    have hB := hin.2.2
    rw [hdate] at hB
    have hF : strLe "2024-03-01"
        (toString 2024 ++ "-" ++ ExpenseModel.pad2 2 ++ "-31") = false := by
      decide
    exact Bool.false_ne_true (hF.symm.trans hB)

/-- Two-row table used to witness C3: a leap-day record and a March
record. -/
def monthlyDemoStore : Store :=
  { rows := [⟨1, "Leap", 5, "Groceries", "2024-02-29", 0, 0⟩,
             ⟨2, "March", 5, "Groceries", "2024-03-01", 0, 0⟩],
    nextId := 3 }

/-- Witness for C3: on the demo table, `listMonthly(2024, 2)` includes the
record dated 2024-02-29 and excludes the record dated 2024-03-01. -/
theorem getMonthlyExpenses_range_witness :
    (⟨1, "Leap", 5, "Groceries", "2024-02-29", 0, 0⟩ : Expense) ∈
      ExpenseModel.getMonthlyExpenses 2024 2 monthlyDemoStore ∧
    (⟨2, "March", 5, "Groceries", "2024-03-01", 0, 0⟩ : Expense) ∉
      ExpenseModel.getMonthlyExpenses 2024 2 monthlyDemoStore :=
  ⟨((getMonthlyExpenses_range 2024 2 monthlyDemoStore
      ⟨1, "Leap", 5, "Groceries", "2024-02-29", 0, 0⟩).2.1 rfl).mpr
      (by decide),
   (getMonthlyExpenses_range 2024 2 monthlyDemoStore
      ⟨2, "March", 5, "Groceries", "2024-03-01", 0, 0⟩).2.2 rfl⟩
